import Mathlib

/-!
Shallow embedding of `packages/trpc/server/routers/loggedInViewer/outOfOffice.handler.ts`:
the three request handlers `outOfOfficeCreate`, `outOfOfficeEntryDelete` and
`outOfOfficeEntriesList` over an explicit record store.

Modelling conventions:
  - instants are integers counting milliseconds; a calendar date is an integer
    day index, so `dayjs(d).startOf("day")` is `d * msPerDay` and
    `dayjs(d).endOf("day")` is the last millisecond of day `d`;
  - the Prisma store is a structure holding the `user` and `outOfOfficeEntry`
    tables as lists plus the next autoincrement id; `findFirst` is `List.find?`
    over the translated `where` filter;
  - a thrown `TRPCError` is the `Except.error` branch; the store is returned on
    success, and a thrown error performs no write, so `applyCreate` and
    `applyDelete` give the store as the handler leaves it in either case;
  - the clock (`dayjs()` and `new Date()`), the server UTC offset
    (`dayjs(inputStartTime).utcOffset()`, in minutes) and the generated uuid
    (`uuidv4()`) enter as parameters;
  - the email notification after a successful insert only reads data and sends
    mail, so it does not affect the store and is not modelled.
-/

namespace OutOfOffice

/-- Milliseconds in one calendar day. -/
def msPerDay : Int := 86400000

/-- Milliseconds in one minute. -/
def msPerMinute : Int := 60000

/-- `dayjs(d).startOf("day")` for the calendar date with day index `d`. -/
def startOfDay (d : Int) : Int := d * msPerDay

/-- `dayjs(d).endOf("day")`: the last millisecond of day `d`. -/
def endOfDay (d : Int) : Int := d * msPerDay + (msPerDay - 1)

/-- `dayjs().startOf("day")` at the current instant `now` (floor to the day). -/
def startOfToday (now : Int) : Int := msPerDay * (Int.ediv now msPerDay)

/-- The TRPC error codes this handler throws. -/
inductive TRPCErrorCode
  | BAD_REQUEST
  | NOT_FOUND
  | CONFLICT
deriving DecidableEq, Repr

/-- A thrown `TRPCError`: code plus message key. -/
structure TRPCError where
  code : TRPCErrorCode
  message : String
deriving DecidableEq, Repr

/-- A row of the `user` table, restricted to the fields the handlers read. -/
structure User where
  id : Nat
  email : String
  username : String
deriving DecidableEq, Repr

/-- A row of the `outOfOfficeEntry` table. -/
structure OutOfOfficeEntry where
  id : Nat
  uuid : String
  start : Int
  «end» : Int
  userId : Nat
  toUserId : Option Nat
  createdAt : Int
  updatedAt : Int
deriving DecidableEq, Repr

/-- The calling principal (`ctx.user`), restricted to the fields the handlers read. -/
structure SessionUser where
  id : Nat
  email : String
  username : String
deriving DecidableEq, Repr

/-- The record store: both tables plus the next autoincrement entry id. -/
structure Store where
  users : List User
  entries : List OutOfOfficeEntry
  nextId : Nat
deriving DecidableEq, Repr

/-- Modelled from the spec: the create input shape (`outOfOffice.schema.ts` is not in
the sources); `startDate` and `endDate` are calendar dates, `toTeamUserId` an
optional delegate identity. `none` stands for an absent field. -/
structure TOutOfOfficeInputSchema where
  startDate : Option Int
  endDate : Option Int
  toTeamUserId : Option Nat
deriving DecidableEq, Repr

/-- Modelled from the spec: the delete input shape (`outOfOffice.schema.ts` is not
in the sources); the entry uuid to delete, `none` when absent. -/
structure TOutOfOfficeDelete where
  outOfOfficeUid : Option String
deriving DecidableEq, Repr

/-- The three-branch `OR` filter of the self-conflict query (handler lines 69-92),
against the normalized window `[S, E]`: full overlap (`start < E` and `end > S`),
existing start inside the new range, existing end inside the new range.
All comparisons are strict (`lt` / `gt`). -/
def conflictOverlap (S E : Int) (e : OutOfOfficeEntry) : Bool :=
  (decide (e.start < E) && decide (e.«end» > S))
    || (decide (e.start > S) && decide (e.start < E))
    || (decide (e.«end» > S) && decide (e.«end» < E))

/-- The self-conflict query (handler lines 64-96): first entry of the caller whose
window matches `conflictOverlap`. -/
def findConflictingEntry (callerId : Nat) (S E : Int) (store : Store) :
    Option OutOfOfficeEntry :=
  store.entries.find? (fun e => e.userId == callerId && conflictOverlap S E e)

/-- The two-branch `OR` filter of the cycle query (handler lines 113-128): window
touching or overlapping `[S, E]` from outside (`start ≤ E` and `end ≥ S`) or lying
inside it (`start ≥ S` and `end ≤ E`). All comparisons are inclusive (`lte` / `gte`). -/
def cycleOverlap (S E : Int) (e : OutOfOfficeEntry) : Bool :=
  (decide (e.start ≤ E) && decide (e.«end» ≥ S))
    || (decide (e.start ≥ S) && decide (e.«end» ≤ E))

/-- The `where` filter of the cycle query (handler lines 109-129). When no delegate
was named, `toUserId` is `undefined` in the source and Prisma drops the
`userId: undefined` condition, so the owner filter applies only when the delegate
is present. -/
def cycleWhere (toUserId : Option Nat) (callerId : Nat) (S E : Int)
    (e : OutOfOfficeEntry) : Bool :=
  (match toUserId with
    | some t => e.userId == t
    | none => true)
    && e.toUserId == some callerId && cycleOverlap S E e

/-- The cycle query (handler lines 104-130): first entry matching `cycleWhere`. -/
def findCycleEntry (toUserId : Option Nat) (callerId : Nat) (S E : Int)
    (store : Store) : Option OutOfOfficeEntry :=
  store.entries.find? (cycleWhere toUserId callerId S E)

/-- The instant the future-dating check compares against (handler lines 37-41):
`dayjs().startOf("day").subtract(Math.abs(offset) * 60, "minute")`, with `offset`
the server UTC offset in minutes. -/
def pastThreshold (now offset : Int) : Int :=
  startOfToday now - (offset.natAbs : Int) * 60 * msPerMinute

/-- The row inserted by `prisma.outOfOfficeEntry.create` (handler lines 137-147). -/
def mkEntry (store : Store) (newUuid : String) (S E : Int) (callerId : Nat)
    (toUserId : Option Nat) (now : Int) : OutOfOfficeEntry :=
  { id := store.nextId, uuid := newUuid, start := S, «end» := E,
    userId := callerId, toUserId := toUserId, createdAt := now, updatedAt := now }

/-- Appending a created row to the entry table. -/
def insertEntry (store : Store) (e : OutOfOfficeEntry) : Store :=
  { store with entries := store.entries ++ [e], nextId := store.nextId + 1 }

/-- The tail of `outOfOfficeCreate` after validation and delegate resolution
(handler lines 63-147): self-conflict query, cycle query, insert. -/
def outOfOfficeCreateChecked (ctx : SessionUser) (toUserId : Option Nat)
    (S E now : Int) (newUuid : String) (store : Store) : Except TRPCError Store :=
  match findConflictingEntry ctx.id S E store with
  | some _ => .error ⟨.CONFLICT, "out_of_office_entry_already_exists"⟩
  | none =>
    match findCycleEntry toUserId ctx.id S E store with
    | some _ => .error ⟨.BAD_REQUEST, "booking_redirect_infinite_not_allowed"⟩
    | none => .ok (insertEntry store (mkEntry store newUuid S E ctx.id toUserId now))

/-- `outOfOfficeCreate` (handler lines 20-174): required dates, normalization,
order check, future-dating check, delegate resolution, then the checked tail. -/
def outOfOfficeCreate (ctx : SessionUser) (input : TOutOfOfficeInputSchema)
    (now offset : Int) (newUuid : String) (store : Store) : Except TRPCError Store :=
  match input.startDate, input.endDate with
  | none, _ => .error ⟨.BAD_REQUEST, "start_date_and_end_date_required"⟩
  | some _, none => .error ⟨.BAD_REQUEST, "start_date_and_end_date_required"⟩
  | some sd, some ed =>
    let inputStartTime := startOfDay sd
    let inputEndTime := endOfDay ed
    if inputStartTime > inputEndTime then
      .error ⟨.BAD_REQUEST, "start_date_must_be_before_end_date"⟩
    else if inputStartTime < pastThreshold now offset then
      .error ⟨.BAD_REQUEST, "start_date_must_be_in_the_future"⟩
    else
      match input.toTeamUserId with
      | some t =>
        match store.users.find? (fun u => u.id == t) with
        | none => .error ⟨.NOT_FOUND, "user_not_found"⟩
        | some user =>
          outOfOfficeCreateChecked ctx (some user.id) inputStartTime inputEndTime now
            newUuid store
      | none =>
        outOfOfficeCreateChecked ctx none inputStartTime inputEndTime now newUuid store

/-- The store after a create call: unchanged when the handler throws. -/
def applyCreate (ctx : SessionUser) (input : TOutOfOfficeInputSchema)
    (now offset : Int) (newUuid : String) (store : Store) : Store :=
  match outOfOfficeCreate ctx input now offset newUuid store with
  | .ok s => s
  | .error _ => store

/-- `outOfOfficeEntryDelete` (handler lines 183-211): required uuid (a missing or
empty string is falsy in the source), ownership lookup, delete by uuid. -/
def outOfOfficeEntryDelete (ctx : SessionUser) (input : TOutOfOfficeDelete)
    (store : Store) : Except TRPCError Store :=
  match input.outOfOfficeUid with
  | none => .error ⟨.BAD_REQUEST, "out_of_office_id_required"⟩
  | some uid =>
    if uid = "" then .error ⟨.BAD_REQUEST, "out_of_office_id_required"⟩
    else
      match store.entries.find? (fun e => e.uuid == uid && e.userId == ctx.id) with
      | none => .error ⟨.NOT_FOUND, "booking_redirect_not_found"⟩
      | some _ =>
        .ok { store with entries := store.entries.filter (fun e => e.uuid != uid) }

/-- The store after a delete call: unchanged when the handler throws. -/
def applyDelete (ctx : SessionUser) (input : TOutOfOfficeDelete) (store : Store) :
    Store :=
  match outOfOfficeEntryDelete ctx input store with
  | .ok s => s
  | .error _ => store

/-- One record returned by `outOfOfficeEntriesList`: the selected columns plus the
joined delegate username (`toUser: { select: { username } }`). -/
structure OutOfOfficeListItem where
  id : Nat
  uuid : String
  start : Int
  «end» : Int
  toUserId : Option Nat
  toUserUsername : Option String
deriving DecidableEq, Repr

/-- The projection of an entry to a list record, joining the delegate row. -/
def toListItem (store : Store) (e : OutOfOfficeEntry) : OutOfOfficeListItem :=
  { id := e.id, uuid := e.uuid, start := e.start, «end» := e.«end»,
    toUserId := e.toUserId,
    toUserUsername :=
      e.toUserId.bind (fun t => (store.users.find? (fun u => u.id == t)).map User.username) }

/-- Insertion into a list kept sorted by `start` descending. -/
def insertByStartDesc (e : OutOfOfficeEntry) :
    List OutOfOfficeEntry → List OutOfOfficeEntry
  | [] => [e]
  | x :: xs => if x.start < e.start then e :: x :: xs else x :: insertByStartDesc e xs

/-- `orderBy: { start: "desc" }` as an insertion sort. -/
def sortByStartDesc : List OutOfOfficeEntry → List OutOfOfficeEntry
  | [] => []
  | x :: xs => insertByStartDesc x (sortByStartDesc xs)

/-- `outOfOfficeEntriesList` (handler lines 213-239): entries of the caller with
`end ≥ now`, sorted by `start` descending, projected to the selected columns. -/
def outOfOfficeEntriesList (ctx : SessionUser) (now : Int) (store : Store) :
    List OutOfOfficeListItem :=
  (sortByStartDesc
      (store.entries.filter (fun e => e.userId == ctx.id && decide (e.«end» ≥ now)))).map
    (toListItem store)

/-! ### Concrete fixtures

Calendar dates of 2024 are written as 0-based day-of-year indices:
January 10 is 9, January 12 is 11, January 15 is 14, January 20 is 19,
February 1 is 31, February 3 is 33, February 5 is 35, March 1 is 60,
March 5 is 64. The clock is fixed at instant 0 (the first millisecond of
day 0) with server UTC offset 0. -/

/-- Caller fixture: user 1. -/
def alice : SessionUser := ⟨1, "alice@example.com", "alice"⟩

/-- Caller fixture: user 2. -/
def bob : SessionUser := ⟨2, "bob@example.com", "bob"⟩

/-- User-table row for user 1. -/
def aliceRow : User := ⟨1, "alice@example.com", "alice"⟩

/-- User-table row for user 2. -/
def bobRow : User := ⟨2, "bob@example.com", "bob"⟩

/-- Entry fixture: user 1 out of office over [2024-01-10, 2024-01-15], no delegate. -/
def entryJan : OutOfOfficeEntry := ⟨1, "uuid-jan", startOfDay 9, endOfDay 14, 1, none, 0, 0⟩

/-- Entry fixture: user 1 redirecting to user 2 over [2024-02-01, 2024-02-05]. -/
def entryFeb : OutOfOfficeEntry := ⟨2, "uuid-feb", startOfDay 31, endOfDay 35, 1, some 2, 0, 0⟩

/-- Store fixture holding `entryJan`. -/
def storeJan : Store := ⟨[aliceRow, bobRow], [entryJan], 5⟩

/-- Store fixture holding `entryFeb`. -/
def storeFeb : Store := ⟨[aliceRow, bobRow], [entryFeb], 5⟩

/-! ### Helper lemmas -/

theorem mem_insertByStartDesc {a e : OutOfOfficeEntry} {l : List OutOfOfficeEntry} :
    a ∈ insertByStartDesc e l ↔ a = e ∨ a ∈ l := by
  induction l with
  | nil => simp [insertByStartDesc]
  | cons x xs ih =>
    by_cases h : x.start < e.start
    · simp [insertByStartDesc, h]
    · simp only [insertByStartDesc, if_neg h, List.mem_cons, ih, List.mem_cons]
      tauto

theorem mem_sortByStartDesc {a : OutOfOfficeEntry} {l : List OutOfOfficeEntry} :
    a ∈ sortByStartDesc l ↔ a ∈ l := by
  induction l with
  | nil => simp [sortByStartDesc]
  | cons x xs ih =>
    simp only [sortByStartDesc, mem_insertByStartDesc, ih, List.mem_cons]

theorem pairwise_insertByStartDesc {e : OutOfOfficeEntry} {l : List OutOfOfficeEntry}
    (h : l.Pairwise (fun a b => b.start ≤ a.start)) :
    (insertByStartDesc e l).Pairwise (fun a b => b.start ≤ a.start) := by
  induction l with
  | nil => simp [insertByStartDesc]
  | cons x xs ih =>
    rcases List.pairwise_cons.mp h with ⟨hx, hxs⟩
    by_cases hlt : x.start < e.start
    · simp only [insertByStartDesc, if_pos hlt]
      refine List.pairwise_cons.mpr ⟨?_, h⟩
      intro y hy
      rcases List.mem_cons.mp hy with rfl | hy2
      · exact le_of_lt hlt
      · exact le_trans (hx y hy2) (le_of_lt hlt)
    · simp only [insertByStartDesc, if_neg hlt]
      refine List.pairwise_cons.mpr ⟨?_, ih hxs⟩
      intro y hy
      rcases mem_insertByStartDesc.mp hy with rfl | hy2
      · exact le_of_not_lt hlt
      · exact hx y hy2

theorem pairwise_sortByStartDesc (l : List OutOfOfficeEntry) :
    (sortByStartDesc l).Pairwise (fun a b => b.start ≤ a.start) := by
  induction l with
  | nil => simp [sortByStartDesc]
  | cons x xs ih =>
    simp only [sortByStartDesc]
    exact pairwise_insertByStartDesc ih

theorem mem_entriesList_iff {ctx : SessionUser} {now : Int} {store : Store}
    {it : OutOfOfficeListItem} :
    it ∈ outOfOfficeEntriesList ctx now store ↔
      ∃ e, e ∈ store.entries ∧ e.userId = ctx.id ∧ now ≤ e.«end» ∧
        it = toListItem store e := by
  unfold outOfOfficeEntriesList
  simp only [List.mem_map, mem_sortByStartDesc, List.mem_filter, Bool.and_eq_true,
    beq_iff_eq, decide_eq_true_eq, ge_iff_le]
  constructor
  · rintro ⟨e, ⟨⟨he, hu, hn⟩, rfl⟩⟩
    exact ⟨e, he, hu, hn, rfl⟩
  · rintro ⟨e, he, hu, hn, rfl⟩
    exact ⟨e, ⟨⟨he, hu, hn⟩, rfl⟩⟩

theorem entriesList_sorted_aux (ctx : SessionUser) (now : Int) (store : Store) :
    (outOfOfficeEntriesList ctx now store).Pairwise (fun a b => b.start ≤ a.start) := by
  unfold outOfOfficeEntriesList
  refine List.Pairwise.map _ ?_ (pairwise_sortByStartDesc _)
  intro a b hab
  simpa [toListItem] using hab

theorem outOfOfficeCreate_none_eq (ctx : SessionUser) (sd ed : Int)
    (now offset : Int) (newUuid : String) (store : Store)
    (hval : ¬ startOfDay sd > endOfDay ed)
    (hfut : ¬ startOfDay sd < pastThreshold now offset) :
    outOfOfficeCreate ctx ⟨some sd, some ed, none⟩ now offset newUuid store
      = outOfOfficeCreateChecked ctx none (startOfDay sd) (endOfDay ed) now
          newUuid store := by
  simp only [outOfOfficeCreate, if_neg hval, if_neg hfut]

theorem outOfOfficeCreate_some_nouser (ctx : SessionUser) (sd ed : Int) (t : Nat)
    (now offset : Int) (newUuid : String) (store : Store)
    (hval : ¬ startOfDay sd > endOfDay ed)
    (hfut : ¬ startOfDay sd < pastThreshold now offset)
    (hu : store.users.find? (fun u => u.id == t) = none) :
    outOfOfficeCreate ctx ⟨some sd, some ed, some t⟩ now offset newUuid store
      = .error ⟨.NOT_FOUND, "user_not_found"⟩ := by
  simp only [outOfOfficeCreate, if_neg hval, if_neg hfut, hu]

theorem outOfOfficeCreate_some_found (ctx : SessionUser) (sd ed : Int) (t : Nat)
    (u : User) (now offset : Int) (newUuid : String) (store : Store)
    (hval : ¬ startOfDay sd > endOfDay ed)
    (hfut : ¬ startOfDay sd < pastThreshold now offset)
    (hu : store.users.find? (fun v => v.id == t) = some u) :
    outOfOfficeCreate ctx ⟨some sd, some ed, some t⟩ now offset newUuid store
      = outOfOfficeCreateChecked ctx (some u.id) (startOfDay sd) (endOfDay ed) now
          newUuid store := by
  simp only [outOfOfficeCreate, if_neg hval, if_neg hfut, hu]

theorem outOfOfficeCreateChecked_ok {ctx : SessionUser} {toUserId : Option Nat}
    {S E now : Int} {newUuid : String} {store s' : Store}
    (h : outOfOfficeCreateChecked ctx toUserId S E now newUuid store = .ok s') :
    findConflictingEntry ctx.id S E store = none ∧
    findCycleEntry toUserId ctx.id S E store = none ∧
    s' = insertEntry store (mkEntry store newUuid S E ctx.id toUserId now) := by
  unfold outOfOfficeCreateChecked at h
  cases hfc : findConflictingEntry ctx.id S E store with
  | some e => rw [hfc] at h; cases h
  | none =>
    rw [hfc] at h
    cases hcy : findCycleEntry toUserId ctx.id S E store with
    | some e => rw [hcy] at h; cases h
    | none =>
      rw [hcy] at h
      exact ⟨rfl, rfl, (Except.ok.inj h).symm⟩

theorem outOfOfficeCreate_ok {ctx : SessionUser} {input : TOutOfOfficeInputSchema}
    {now offset : Int} {newUuid : String} {store s' : Store}
    (h : outOfOfficeCreate ctx input now offset newUuid store = .ok s') :
    ∃ sd ed, input.startDate = some sd ∧ input.endDate = some ed ∧
      ¬ startOfDay sd > endOfDay ed ∧
      ¬ startOfDay sd < pastThreshold now offset ∧
      ∃ tu : Option Nat,
        (input.toTeamUserId = none ∧ tu = none ∨
          ∃ t u, input.toTeamUserId = some t ∧
            store.users.find? (fun v => v.id == t) = some u ∧ u.id = t ∧ tu = some u.id) ∧
        findConflictingEntry ctx.id (startOfDay sd) (endOfDay ed) store = none ∧
        findCycleEntry tu ctx.id (startOfDay sd) (endOfDay ed) store = none ∧
        s' = insertEntry store
            (mkEntry store newUuid (startOfDay sd) (endOfDay ed) ctx.id tu now) := by
  obtain ⟨osd, oed, ott⟩ := input
  cases osd with
  | none => exact absurd h (by simp [outOfOfficeCreate])
  | some sd =>
    cases oed with
    | none => exact absurd h (by simp [outOfOfficeCreate])
    | some ed =>
      by_cases hval : startOfDay sd > endOfDay ed
      · rw [outOfOfficeCreate] at h
        simp only [if_pos hval] at h
        exact Except.noConfusion h
      · by_cases hfut : startOfDay sd < pastThreshold now offset
        · rw [outOfOfficeCreate] at h
          simp only [if_neg hval, if_pos hfut] at h
          exact Except.noConfusion h
        · refine ⟨sd, ed, rfl, rfl, hval, hfut, ?_⟩
          cases ott with
          | none =>
            rw [outOfOfficeCreate_none_eq ctx sd ed now offset newUuid store hval hfut] at h
            obtain ⟨h1, h2, h3⟩ := outOfOfficeCreateChecked_ok h
            exact ⟨none, Or.inl ⟨rfl, rfl⟩, h1, h2, h3⟩
          | some t =>
            cases hu : store.users.find? (fun v => v.id == t) with
            | none =>
              rw [outOfOfficeCreate_some_nouser ctx sd ed t now offset newUuid store
                hval hfut hu] at h
              exact Except.noConfusion h
            | some u =>
              rw [outOfOfficeCreate_some_found ctx sd ed t u now offset newUuid store
                hval hfut hu] at h
              obtain ⟨h1, h2, h3⟩ := outOfOfficeCreateChecked_ok h
              have hid : u.id = t := by
                have hp := List.find?_some hu
                simpa using hp
              exact ⟨some u.id, Or.inr ⟨t, u, rfl, hu, hid, rfl⟩, h1, h2, h3⟩

theorem outOfOfficeCreateChecked_conflict {ctx : SessionUser} {toUserId : Option Nat}
    {S E now : Int} {newUuid : String} {store : Store} {e : OutOfOfficeEntry}
    (hfc : findConflictingEntry ctx.id S E store = some e) :
    outOfOfficeCreateChecked ctx toUserId S E now newUuid store
      = .error ⟨.CONFLICT, "out_of_office_entry_already_exists"⟩ := by
  simp only [outOfOfficeCreateChecked, hfc]

theorem outOfOfficeCreateChecked_cycle {ctx : SessionUser} {toUserId : Option Nat}
    {S E now : Int} {newUuid : String} {store : Store} {e : OutOfOfficeEntry}
    (hfc : findConflictingEntry ctx.id S E store = none)
    (hcy : findCycleEntry toUserId ctx.id S E store = some e) :
    outOfOfficeCreateChecked ctx toUserId S E now newUuid store
      = .error ⟨.BAD_REQUEST, "booking_redirect_infinite_not_allowed"⟩ := by
  simp only [outOfOfficeCreateChecked, hfc, hcy]

theorem outOfOfficeCreateChecked_insert {ctx : SessionUser} {toUserId : Option Nat}
    {S E now : Int} {newUuid : String} {store : Store}
    (hfc : findConflictingEntry ctx.id S E store = none)
    (hcy : findCycleEntry toUserId ctx.id S E store = none) :
    outOfOfficeCreateChecked ctx toUserId S E now newUuid store
      = .ok (insertEntry store (mkEntry store newUuid S E ctx.id toUserId now)) := by
  simp only [outOfOfficeCreateChecked, hfc, hcy]

theorem outOfOfficeCreateChecked_ne_past (ctx : SessionUser) (toUserId : Option Nat)
    (S E now : Int) (newUuid : String) (store : Store) :
    outOfOfficeCreateChecked ctx toUserId S E now newUuid store
      ≠ .error ⟨.BAD_REQUEST, "start_date_must_be_in_the_future"⟩ := by
  unfold outOfOfficeCreateChecked
  split
  · simp
  · split <;> simp

theorem find?_some_of_mem {α : Type} {p : α → Bool} {l : List α} {a : α}
    (ha : a ∈ l) (hp : p a = true) : ∃ b, l.find? p = some b := by
  cases hf : l.find? p with
  | some b => exact ⟨b, rfl⟩
  | none => exact absurd hp (by simpa using List.find?_eq_none.mp hf a ha)

/-! ### Claim theorems -/

/-- C10: for a well-formed existing window, the three-branch overlap filter of the
self-conflict query is equivalent to its first branch alone (existing start before
the new end and existing end after the new start); because its comparisons are
strict, an existing window sharing only a boundary instant with the new window
does not conflict, while the cycle filter, whose comparisons are inclusive, does
match such a window. -/
theorem overlap_predicate_subsumption (S E : Int) (e : OutOfOfficeEntry)
    (hwf : e.start ≤ e.«end») :
    (conflictOverlap S E e = true ↔ (e.start < E ∧ S < e.«end»)) ∧
    (S ≤ E → (e.«end» = S ∨ e.start = E) →
      conflictOverlap S E e = false ∧ cycleOverlap S E e = true) := by
  have hiff : conflictOverlap S E e = true ↔ (e.start < E ∧ S < e.«end») := by
    simp only [conflictOverlap, Bool.or_eq_true, Bool.and_eq_true, decide_eq_true_eq,
      gt_iff_lt]
    omega
  refine ⟨hiff, fun hSE hb => ⟨?_, ?_⟩⟩
  · refine Bool.eq_false_iff.mpr fun hc => ?_
    rcases hiff.mp hc with ⟨h1, h2⟩
    rcases hb with hb | hb <;> omega
  · simp only [cycleOverlap, Bool.or_eq_true, Bool.and_eq_true, decide_eq_true_eq,
      ge_iff_le]
    rcases hb with hb | hb <;> omega

/-- C10 witness: existing window [2024-01-20, 2024-02-01 start-of-day] touching the
new window [2024-02-01, 2024-02-05] only at its normalized start: no strict
conflict, but the inclusive cycle filter matches. -/
theorem overlap_predicate_subsumption_witness :
    (conflictOverlap (startOfDay 31) (endOfDay 35)
        ⟨1, "u", startOfDay 19, startOfDay 31, 1, none, 0, 0⟩ = true ↔
      (startOfDay 19 < endOfDay 35 ∧ startOfDay 31 < startOfDay 31)) ∧
    (startOfDay 31 ≤ endOfDay 35 →
      (startOfDay 31 = startOfDay 31 ∨ startOfDay 19 = endOfDay 35) →
      conflictOverlap (startOfDay 31) (endOfDay 35)
          ⟨1, "u", startOfDay 19, startOfDay 31, 1, none, 0, 0⟩ = false ∧
      cycleOverlap (startOfDay 31) (endOfDay 35)
          ⟨1, "u", startOfDay 19, startOfDay 31, 1, none, 0, 0⟩ = true) :=
  overlap_predicate_subsumption (startOfDay 31) (endOfDay 35)
    ⟨1, "u", startOfDay 19, startOfDay 31, 1, none, 0, 0⟩ (by decide)

/-- C4: a start date after the end date is exactly a normalized start after the
normalized end, and such a call fails with `InvalidInput`
(`start_date_must_be_before_end_date`), leaving the store unchanged. -/
theorem create_start_after_end_rejected (ctx : SessionUser) (sd ed : Int)
    (tt : Option Nat) (now offset : Int) (newUuid : String) (store : Store) :
    (ed < sd ↔ endOfDay ed < startOfDay sd) ∧
    (ed < sd →
      outOfOfficeCreate ctx ⟨some sd, some ed, tt⟩ now offset newUuid store
        = .error ⟨.BAD_REQUEST, "start_date_must_be_before_end_date"⟩ ∧
      applyCreate ctx ⟨some sd, some ed, tt⟩ now offset newUuid store = store) := by
  have hiff : ed < sd ↔ endOfDay ed < startOfDay sd := by
    unfold endOfDay startOfDay msPerDay
    constructor <;> intro h <;> nlinarith
  refine ⟨hiff, fun hd => ?_⟩
  have herr : outOfOfficeCreate ctx ⟨some sd, some ed, tt⟩ now offset newUuid store
      = .error ⟨.BAD_REQUEST, "start_date_must_be_before_end_date"⟩ := by
    simp only [outOfOfficeCreate, if_pos (hiff.mp hd)]
  exact ⟨herr, by simp only [applyCreate, herr]⟩

/-- C4 witness: start date 5 after end date 3 is rejected, the store untouched. -/
theorem create_start_after_end_rejected_witness :
    outOfOfficeCreate alice ⟨some 5, some 3, none⟩ 0 0 "w" storeJan
      = .error ⟨.BAD_REQUEST, "start_date_must_be_before_end_date"⟩ ∧
    applyCreate alice ⟨some 5, some 3, none⟩ 0 0 "w" storeJan = storeJan :=
  (create_start_after_end_rejected alice 5 3 none 0 0 "w" storeJan).2 (by decide)

/-- C3: with both dates given and the normalized start not after the normalized
end, a normalized start strictly before the threshold (today at start of day,
shifted back by the absolute server UTC offset as the source computes it) fails
with `InvalidInput` (`start_date_must_be_in_the_future`) leaving the store
unchanged, while a normalized start at or after the threshold never produces that
error. -/
theorem create_past_start_rules (ctx : SessionUser) (sd ed : Int) (tt : Option Nat)
    (now offset : Int) (newUuid : String) (store : Store)
    (hval : startOfDay sd ≤ endOfDay ed) :
    (startOfDay sd < pastThreshold now offset →
      outOfOfficeCreate ctx ⟨some sd, some ed, tt⟩ now offset newUuid store
        = .error ⟨.BAD_REQUEST, "start_date_must_be_in_the_future"⟩ ∧
      applyCreate ctx ⟨some sd, some ed, tt⟩ now offset newUuid store = store) ∧
    (pastThreshold now offset ≤ startOfDay sd →
      outOfOfficeCreate ctx ⟨some sd, some ed, tt⟩ now offset newUuid store
        ≠ .error ⟨.BAD_REQUEST, "start_date_must_be_in_the_future"⟩) := by
  have hval' : ¬ startOfDay sd > endOfDay ed := not_lt.mpr hval
  constructor
  · intro hpast
    have herr : outOfOfficeCreate ctx ⟨some sd, some ed, tt⟩ now offset newUuid store
        = .error ⟨.BAD_REQUEST, "start_date_must_be_in_the_future"⟩ := by
      simp only [outOfOfficeCreate, if_neg hval', if_pos hpast]
    exact ⟨herr, by simp only [applyCreate, herr]⟩
  · intro hge
    have hfut' : ¬ startOfDay sd < pastThreshold now offset := not_lt.mpr hge
    cases tt with
    | none =>
      rw [outOfOfficeCreate_none_eq ctx sd ed now offset newUuid store hval' hfut']
      exact outOfOfficeCreateChecked_ne_past ctx none (startOfDay sd) (endOfDay ed)
        now newUuid store
    | some t =>
      cases hu : store.users.find? (fun v => v.id == t) with
      | none =>
        rw [outOfOfficeCreate_some_nouser ctx sd ed t now offset newUuid store
          hval' hfut' hu]
        simp
      | some u =>
        rw [outOfOfficeCreate_some_found ctx sd ed t u now offset newUuid store
          hval' hfut' hu]
        exact outOfOfficeCreateChecked_ne_past ctx (some u.id) (startOfDay sd)
          (endOfDay ed) now newUuid store

/-- C3 witness: with the clock on day 1 and offset 0, day 0 is rejected as past
while day 1 passes the future-dating check. -/
theorem create_past_start_rules_witness :
    (outOfOfficeCreate alice ⟨some 0, some 2, none⟩ (startOfDay 1) 0 "w" ⟨[], [], 0⟩
        = .error ⟨.BAD_REQUEST, "start_date_must_be_in_the_future"⟩ ∧
      applyCreate alice ⟨some 0, some 2, none⟩ (startOfDay 1) 0 "w" ⟨[], [], 0⟩
        = ⟨[], [], 0⟩) ∧
    outOfOfficeCreate alice ⟨some 1, some 2, none⟩ (startOfDay 1) 0 "w" ⟨[], [], 0⟩
      ≠ .error ⟨.BAD_REQUEST, "start_date_must_be_in_the_future"⟩ :=
  ⟨(create_past_start_rules alice 0 2 none (startOfDay 1) 0 "w" ⟨[], [], 0⟩
      (by decide)).1 (by decide),
    (create_past_start_rules alice 1 2 none (startOfDay 1) 0 "w" ⟨[], [], 0⟩
      (by decide)).2 (by decide)⟩

/-- C1: when the handler's date validations pass and the delegate (if named)
resolves, a caller who already owns an entry whose window matches the three-way
overlap filter against the normalized new window gets `Conflict`, and the store
is unchanged. -/
theorem create_overlapping_self_entry_conflict (ctx : SessionUser) (sd ed : Int)
    (tt : Option Nat) (now offset : Int) (newUuid : String) (store : Store)
    (hval : startOfDay sd ≤ endOfDay ed)
    (hfut : pastThreshold now offset ≤ startOfDay sd)
    (hdel : ∀ t, tt = some t → ∃ u ∈ store.users, u.id = t)
    (e : OutOfOfficeEntry) (he : e ∈ store.entries) (heu : e.userId = ctx.id)
    (hov : conflictOverlap (startOfDay sd) (endOfDay ed) e = true) :
    outOfOfficeCreate ctx ⟨some sd, some ed, tt⟩ now offset newUuid store
      = .error ⟨.CONFLICT, "out_of_office_entry_already_exists"⟩ ∧
    applyCreate ctx ⟨some sd, some ed, tt⟩ now offset newUuid store = store := by
  have hval' : ¬ startOfDay sd > endOfDay ed := not_lt.mpr hval
  have hfut' : ¬ startOfDay sd < pastThreshold now offset := not_lt.mpr hfut
  obtain ⟨x, hx⟩ :
      ∃ x, findConflictingEntry ctx.id (startOfDay sd) (endOfDay ed) store = some x :=
    find?_some_of_mem he (by simp [heu, hov])
  have herr : outOfOfficeCreate ctx ⟨some sd, some ed, tt⟩ now offset newUuid store
      = .error ⟨.CONFLICT, "out_of_office_entry_already_exists"⟩ := by
    cases tt with
    | none =>
      rw [outOfOfficeCreate_none_eq ctx sd ed now offset newUuid store hval' hfut']
      exact outOfOfficeCreateChecked_conflict hx
    | some t =>
      obtain ⟨u, hu, hut⟩ := hdel t rfl
      obtain ⟨u0, hu0⟩ : ∃ u0, store.users.find? (fun v => v.id == t) = some u0 :=
        find?_some_of_mem hu (by simp [hut])
      rw [outOfOfficeCreate_some_found ctx sd ed t u0 now offset newUuid store
        hval' hfut' hu0]
      exact outOfOfficeCreateChecked_conflict hx
  exact ⟨herr, by simp only [applyCreate, herr]⟩

/-- C1 witness: alice owns A = [2024-01-10, 2024-01-15]; her attempt
B = [2024-01-12, 2024-01-20] fails with `Conflict` and the store is unchanged. -/
theorem create_overlapping_self_entry_conflict_witness :
    outOfOfficeCreate alice ⟨some 11, some 19, none⟩ 0 0 "w" storeJan
      = .error ⟨.CONFLICT, "out_of_office_entry_already_exists"⟩ ∧
    applyCreate alice ⟨some 11, some 19, none⟩ 0 0 "w" storeJan = storeJan :=
  create_overlapping_self_entry_conflict alice 11 19 none 0 0 "w" storeJan
    (by decide) (by decide) (fun t ht => Option.noConfusion ht) entryJan
    (by decide) (by decide) (by decide)

theorem cycleOverlap_eq_false {S E : Int} {e : OutOfOfficeEntry}
    (hwf : e.start ≤ e.«end») (hd : e.«end» < S ∨ E < e.start) :
    cycleOverlap S E e = false := by
  refine Bool.eq_false_iff.mpr fun hc => ?_
  simp only [cycleOverlap, Bool.or_eq_true, Bool.and_eq_true, decide_eq_true_eq,
    ge_iff_le] at hc
  omega

/-- C2: with valid dates, a resolving delegate and no self-conflict: a
back-redirect already held by the delegate toward the caller whose window matches
the inclusive cycle filter makes the call fail with `InvalidInput`
(infinite redirect); when every entry of the delegate redirecting back to the
caller is a well-formed window disjoint from the new one, the check passes and
the entry is inserted. -/
theorem create_backredirect_cycle_rules (ctx : SessionUser) (sd ed : Int) (t : Nat)
    (u : User) (now offset : Int) (newUuid : String) (store : Store)
    (hval : startOfDay sd ≤ endOfDay ed)
    (hfut : pastThreshold now offset ≤ startOfDay sd)
    (hu : store.users.find? (fun v => v.id == t) = some u)
    (hnoconf : ∀ e ∈ store.entries, ¬ (e.userId = ctx.id ∧
      conflictOverlap (startOfDay sd) (endOfDay ed) e = true)) :
    ((∃ e ∈ store.entries, e.userId = u.id ∧ e.toUserId = some ctx.id ∧
        cycleOverlap (startOfDay sd) (endOfDay ed) e = true) →
      outOfOfficeCreate ctx ⟨some sd, some ed, some t⟩ now offset newUuid store
        = .error ⟨.BAD_REQUEST, "booking_redirect_infinite_not_allowed"⟩) ∧
    ((∀ e ∈ store.entries, e.userId = u.id → e.toUserId = some ctx.id →
        e.start ≤ e.«end» ∧ (e.«end» < startOfDay sd ∨ endOfDay ed < e.start)) →
      outOfOfficeCreate ctx ⟨some sd, some ed, some t⟩ now offset newUuid store
        = .ok (insertEntry store (mkEntry store newUuid (startOfDay sd) (endOfDay ed)
            ctx.id (some u.id) now))) := by
  have hval' : ¬ startOfDay sd > endOfDay ed := not_lt.mpr hval
  have hfut' : ¬ startOfDay sd < pastThreshold now offset := not_lt.mpr hfut
  have hfc : findConflictingEntry ctx.id (startOfDay sd) (endOfDay ed) store = none := by
    refine List.find?_eq_none.mpr fun e he => ?_
    simpa using hnoconf e he
  constructor
  · rintro ⟨e, he, h1, h2, h3⟩
    obtain ⟨x, hx⟩ : ∃ x, findCycleEntry (some u.id) ctx.id (startOfDay sd)
        (endOfDay ed) store = some x :=
      find?_some_of_mem he (by simp [cycleWhere, h1, h2, h3])
    rw [outOfOfficeCreate_some_found ctx sd ed t u now offset newUuid store
      hval' hfut' hu]
    exact outOfOfficeCreateChecked_cycle hfc hx
  · intro hdisj
    have hcy : findCycleEntry (some u.id) ctx.id (startOfDay sd) (endOfDay ed) store
        = none := by
      refine List.find?_eq_none.mpr fun e he => ?_
      intro hcontra
      simp only [cycleWhere, Bool.and_eq_true, beq_iff_eq] at hcontra
      obtain ⟨⟨h1, h2⟩, h3⟩ := hcontra
      obtain ⟨hwf, hdj⟩ := hdisj e he h1 h2
      rw [cycleOverlap_eq_false hwf hdj] at h3
      exact Bool.false_ne_true h3
    rw [outOfOfficeCreate_some_found ctx sd ed t u now offset newUuid store
      hval' hfut' hu]
    exact outOfOfficeCreateChecked_insert hfc hcy

/-- C2 witness: after alice redirects to bob over [2024-02-01, 2024-02-05], bob's
redirect back to alice over the overlapping [2024-02-03, 2024-02-07] fails with
the infinite-redirect error, while bob's redirect back to alice over the disjoint
[2024-03-01, 2024-03-05] succeeds and is inserted. -/
theorem create_backredirect_cycle_rules_witness :
    (outOfOfficeCreate bob ⟨some 33, some 37, some 1⟩ 0 0 "w" storeFeb
        = .error ⟨.BAD_REQUEST, "booking_redirect_infinite_not_allowed"⟩) ∧
    (outOfOfficeCreate bob ⟨some 60, some 64, some 1⟩ 0 0 "w" storeFeb
        = .ok (insertEntry storeFeb (mkEntry storeFeb "w" (startOfDay 60)
            (endOfDay 64) bob.id (some aliceRow.id) 0))) :=
  ⟨(create_backredirect_cycle_rules bob 33 37 1 aliceRow 0 0 "w" storeFeb (by decide)
      (by decide) (by decide) (by decide)).1
      ⟨entryFeb, by decide, by decide, by decide, by decide⟩,
    (create_backredirect_cycle_rules bob 60 64 1 aliceRow 0 0 "w" storeFeb (by decide)
      (by decide) (by decide) (by decide)).2 (by decide)⟩

/-- C9: with no delegate named, `toUserId` stays undefined, Prisma drops the
owner condition of the cycle query, and so an entry of any user redirecting to
the caller whose window matches the inclusive cycle filter makes the call fail
with `InvalidInput` (infinite redirect). -/
theorem create_cycle_filter_dropped_without_delegate (ctx : SessionUser)
    (sd ed : Int) (now offset : Int) (newUuid : String) (store : Store)
    (hval : startOfDay sd ≤ endOfDay ed)
    (hfut : pastThreshold now offset ≤ startOfDay sd)
    (hnoconf : ∀ e ∈ store.entries, ¬ (e.userId = ctx.id ∧
      conflictOverlap (startOfDay sd) (endOfDay ed) e = true))
    (e : OutOfOfficeEntry) (he : e ∈ store.entries) (het : e.toUserId = some ctx.id)
    (hcy : cycleOverlap (startOfDay sd) (endOfDay ed) e = true) :
    outOfOfficeCreate ctx ⟨some sd, some ed, none⟩ now offset newUuid store
      = .error ⟨.BAD_REQUEST, "booking_redirect_infinite_not_allowed"⟩ := by
  have hval' : ¬ startOfDay sd > endOfDay ed := not_lt.mpr hval
  have hfut' : ¬ startOfDay sd < pastThreshold now offset := not_lt.mpr hfut
  have hfc : findConflictingEntry ctx.id (startOfDay sd) (endOfDay ed) store = none := by
    refine List.find?_eq_none.mpr fun x hx => ?_
    simpa using hnoconf x hx
  obtain ⟨x, hx⟩ : ∃ x, findCycleEntry none ctx.id (startOfDay sd) (endOfDay ed) store
      = some x :=
    find?_some_of_mem he (by simp [cycleWhere, het, hcy])
  rw [outOfOfficeCreate_none_eq ctx sd ed now offset newUuid store hval' hfut']
  exact outOfOfficeCreateChecked_cycle hfc hx

/-- C9 witness: user 3 (not the caller's delegate: none was named) holds an entry
redirecting to alice over [2024-03-03, 2024-03-07]; alice's delegate-less entry
over [2024-03-01, 2024-03-05] fails with the infinite-redirect error. -/
theorem create_cycle_filter_dropped_without_delegate_witness :
    outOfOfficeCreate alice ⟨some 60, some 64, none⟩ 0 0 "w"
        ⟨[aliceRow], [⟨7, "x", startOfDay 62, endOfDay 66, 3, some 1, 0, 0⟩], 9⟩
      = .error ⟨.BAD_REQUEST, "booking_redirect_infinite_not_allowed"⟩ :=
  create_cycle_filter_dropped_without_delegate alice 60 64 0 0 "w"
    ⟨[aliceRow], [⟨7, "x", startOfDay 62, endOfDay 66, 3, some 1, 0, 0⟩], 9⟩
    (by decide) (by decide) (by decide)
    ⟨7, "x", startOfDay 62, endOfDay 66, 3, some 1, 0, 0⟩
    (by decide) (by decide) (by decide)

/-- C7: with valid dates and a named delegate: when no user carries that identity
the call fails with `NotFound` and the store is unchanged; when one does, any
entry the call inserts carries that identity as its delegate `toUserId`. -/
theorem create_delegate_resolution (ctx : SessionUser) (sd ed : Int) (t : Nat)
    (now offset : Int) (newUuid : String) (store : Store)
    (hval : startOfDay sd ≤ endOfDay ed)
    (hfut : pastThreshold now offset ≤ startOfDay sd) :
    ((∀ u ∈ store.users, u.id ≠ t) →
      outOfOfficeCreate ctx ⟨some sd, some ed, some t⟩ now offset newUuid store
          = .error ⟨.NOT_FOUND, "user_not_found"⟩ ∧
      applyCreate ctx ⟨some sd, some ed, some t⟩ now offset newUuid store = store) ∧
    (∀ s', outOfOfficeCreate ctx ⟨some sd, some ed, some t⟩ now offset newUuid store
        = .ok s' →
      s' = insertEntry store (mkEntry store newUuid (startOfDay sd) (endOfDay ed)
          ctx.id (some t) now)) := by
  constructor
  · intro hno
    have hval' : ¬ startOfDay sd > endOfDay ed := not_lt.mpr hval
    have hfut' : ¬ startOfDay sd < pastThreshold now offset := not_lt.mpr hfut
    have hu : store.users.find? (fun v => v.id == t) = none :=
      List.find?_eq_none.mpr fun u hu => by simpa using hno u hu
    have herr := outOfOfficeCreate_some_nouser ctx sd ed t now offset newUuid store
      hval' hfut' hu
    exact ⟨herr, by simp only [applyCreate, herr]⟩
  · intro s' h
    obtain ⟨sd2, ed2, hsd, hed, _, _, tu, hor, _, _, hs'⟩ := outOfOfficeCreate_ok h
    injection hsd with hsd
    injection hed with hed
    subst hsd
    subst hed
    rcases hor with ⟨hnone, _⟩ | ⟨t2, u2, ht2, _, hid2, htu⟩
    · exact absurd hnone (by simp)
    · injection ht2 with ht2
      subst ht2
      rw [hs', htu, hid2]

/-- C7 witness: alice names delegate 9, which exists in no user row: the call
fails with `NotFound` and the store is unchanged. -/
theorem create_delegate_resolution_witness :
    outOfOfficeCreate alice ⟨some 60, some 64, some 9⟩ 0 0 "w" storeJan
      = .error ⟨.NOT_FOUND, "user_not_found"⟩ ∧
    applyCreate alice ⟨some 60, some 64, some 9⟩ 0 0 "w" storeJan = storeJan :=
  (create_delegate_resolution alice 60 64 9 0 0 "w" storeJan (by decide)
    (by decide)).1 (by decide)

/-- C5: ListRedirects returns exactly the projections (id, uuid, start, end,
delegate identity and delegate username) of the entries owned by the caller whose
end is at or after the current instant, and the result is ordered by start
descending; in particular no returned record has its end strictly before now. -/
theorem entriesList_spec (ctx : SessionUser) (now : Int) (store : Store) :
    (∀ it, it ∈ outOfOfficeEntriesList ctx now store ↔
      ∃ e, e ∈ store.entries ∧ e.userId = ctx.id ∧ now ≤ e.«end» ∧
        it = toListItem store e) ∧
    (outOfOfficeEntriesList ctx now store).Pairwise (fun a b => b.start ≤ a.start) :=
  ⟨fun _ => mem_entriesList_iff, entriesList_sorted_aux ctx now store⟩

/-- C5 witness: on the January fixture store, alice's list at instant 0 contains
exactly the projection of her entry. -/
theorem entriesList_spec_witness :
    toListItem storeJan entryJan ∈ outOfOfficeEntriesList alice 0 storeJan :=
  ((entriesList_spec alice 0 storeJan).1 (toListItem storeJan entryJan)).mpr
    ⟨entryJan, by decide, by decide, by decide, rfl⟩

/-- C6: DeleteRedirect rejects a missing (or empty, falsy in the source)
identifier with `InvalidInput`; when no entry with that uuid is owned by the
caller it fails with `NotFound`, the store is unchanged, and an entry with that
uuid owned by another user stays listable by its owner; when the caller owns an
entry with that uuid, the rows carrying the uuid are removed and the success
payload is returned. -/
theorem entryDelete_spec (ctx ctx2 : SessionUser) (uid : String) (now : Int)
    (store : Store) :
    (outOfOfficeEntryDelete ctx ⟨none⟩ store
        = .error ⟨.BAD_REQUEST, "out_of_office_id_required"⟩) ∧
    (outOfOfficeEntryDelete ctx ⟨some ""⟩ store
        = .error ⟨.BAD_REQUEST, "out_of_office_id_required"⟩) ∧
    (uid ≠ "" → (∀ e ∈ store.entries, e.uuid = uid → e.userId ≠ ctx.id) →
      outOfOfficeEntryDelete ctx ⟨some uid⟩ store
          = .error ⟨.NOT_FOUND, "booking_redirect_not_found"⟩ ∧
      applyDelete ctx ⟨some uid⟩ store = store ∧
      (∀ e ∈ store.entries, e.uuid = uid → e.userId = ctx2.id → now ≤ e.«end» →
        toListItem store e ∈
          outOfOfficeEntriesList ctx2 now (applyDelete ctx ⟨some uid⟩ store))) ∧
    (uid ≠ "" → (∃ e ∈ store.entries, e.uuid = uid ∧ e.userId = ctx.id) →
      outOfOfficeEntryDelete ctx ⟨some uid⟩ store
        = .ok { store with entries := store.entries.filter (fun e => e.uuid != uid) }) := by
  refine ⟨rfl, by simp [outOfOfficeEntryDelete], ?_, ?_⟩
  · intro hne hnot
    have hf : store.entries.find? (fun e => e.uuid == uid && e.userId == ctx.id)
        = none := by
      refine List.find?_eq_none.mpr fun e he => ?_
      intro hcontra
      simp only [Bool.and_eq_true, beq_iff_eq] at hcontra
      exact hnot e he hcontra.1 hcontra.2
    have herr : outOfOfficeEntryDelete ctx ⟨some uid⟩ store
        = .error ⟨.NOT_FOUND, "booking_redirect_not_found"⟩ := by
      simp only [outOfOfficeEntryDelete, if_neg hne, hf]
    have hst : applyDelete ctx ⟨some uid⟩ store = store := by
      simp only [applyDelete, herr]
    refine ⟨herr, hst, fun e he heu hev hnow => ?_⟩
    rw [hst]
    exact mem_entriesList_iff.mpr ⟨e, he, hev, hnow, rfl⟩
  · rintro hne ⟨e, he, h1, h2⟩
    obtain ⟨x, hx⟩ :
        ∃ x, store.entries.find? (fun e => e.uuid == uid && e.userId == ctx.id)
          = some x :=
      find?_some_of_mem he (by simp [h1, h2])
    simp only [outOfOfficeEntryDelete, if_neg hne, hx]

/-- C6 witness: bob deleting the uuid of an entry owned by alice gets `NotFound`,
the store is unchanged, and the entry stays listable by alice. -/
theorem entryDelete_spec_witness :
    outOfOfficeEntryDelete bob ⟨some "uuid-jan"⟩ storeJan
        = .error ⟨.NOT_FOUND, "booking_redirect_not_found"⟩ ∧
    applyDelete bob ⟨some "uuid-jan"⟩ storeJan = storeJan ∧
    (∀ e ∈ storeJan.entries, e.uuid = "uuid-jan" → e.userId = alice.id →
      0 ≤ e.«end» →
      toListItem storeJan e ∈
        outOfOfficeEntriesList alice 0 (applyDelete bob ⟨some "uuid-jan"⟩ storeJan)) :=
  (entryDelete_spec bob alice "uuid-jan" 0 storeJan).2.2.1 (by decide) (by decide)

/-- C8: a CreateRedirect call that succeeds leaves an entry that a subsequent
ListRedirects by the same caller, at any instant not after the normalized end,
returns with start equal to the start-of-day of the given start date and end
equal to the end-of-day of the given end date. -/
theorem create_list_roundtrip (ctx : SessionUser) (sd ed : Int) (tt : Option Nat)
    (now offset now2 : Int) (newUuid : String) (store s' : Store)
    (h : outOfOfficeCreate ctx ⟨some sd, some ed, tt⟩ now offset newUuid store
      = .ok s')
    (hnow2 : now2 ≤ endOfDay ed) :
    ∃ it ∈ outOfOfficeEntriesList ctx now2 s',
      it.start = startOfDay sd ∧ it.«end» = endOfDay ed := by
  obtain ⟨sd2, ed2, hsd, hed, _, _, tu, _, _, _, hs'⟩ := outOfOfficeCreate_ok h
  injection hsd with hsd
  injection hed with hed
  subst hsd
  subst hed
  subst hs'
  refine ⟨toListItem
      (insertEntry store (mkEntry store newUuid (startOfDay sd) (endOfDay ed)
        ctx.id tu now))
      (mkEntry store newUuid (startOfDay sd) (endOfDay ed) ctx.id tu now),
    ?_, rfl, rfl⟩
  refine mem_entriesList_iff.mpr
    ⟨mkEntry store newUuid (startOfDay sd) (endOfDay ed) ctx.id tu now, ?_, rfl,
      hnow2, rfl⟩
  simp [insertEntry]

/-- C8 witness: alice creates [2024-03-01, 2024-03-05] on the January fixture
store; her list at instant 0 contains a record with exactly the normalized start
and end. -/
theorem create_list_roundtrip_witness :
    ∃ it ∈ outOfOfficeEntriesList alice 0
        (insertEntry storeJan (mkEntry storeJan "w" (startOfDay 60) (endOfDay 64)
          alice.id none 0)),
      it.start = startOfDay 60 ∧ it.«end» = endOfDay 64 :=
  create_list_roundtrip alice 60 64 none 0 0 0 "w" storeJan
    (insertEntry storeJan (mkEntry storeJan "w" (startOfDay 60) (endOfDay 64)
      alice.id none 0))
    rfl (by decide)

end OutOfOffice
